import Mathlib

/-!
Shallow embedding of the VideoRAG cloud pipeline
(`videorag/_videoutil/split.py`, `asr.py`, `caption.py`, `_utils.py`,
`_storage/__init__.py`, `_op.py`) and proofs about the properties of its
segmentation, enrichment, storage and query-assembly operations.

Durations and similarity scores (Python floats) are embedded as rationals.
-/

namespace VideoRAG

/-- Python `x or default` on an optional rational: `None` and `0` are falsy
(used for `clip.duration or 0.0`). -/
def pyOrQ (x : Option ℚ) (default : ℚ) : ℚ :=
  match x with
  | none => default
  | some v => if v = 0 then default else v

/-- Python `int()` truncation toward zero on a rational. -/
def pyInt (q : ℚ) : ℤ := if 0 ≤ q then ⌊q⌋ else -⌊-q⌋

/-- Python `f"{index:04d}"`: decimal, zero-padded on the left to width 4. -/
def pad4 (n : ℕ) : String :=
  let s := toString n
  String.mk (List.replicate (4 - s.length) '0') ++ s

/-- Embedding of `split.py` line 53:
`segment_id = f"seg-{index:04d}-{int(start * 1000)}-{int(end * 1000)}"`. -/
def segmentIdOf (index : ℕ) (startMs endMs : ℤ) : String :=
  "seg-" ++ pad4 index ++ "-" ++ toString startMs ++ "-" ++ toString endMs

/-- The per-segment metadata computed by `VideoSegmenter.segment`
(`end` is spelled `end_`, a Lean keyword). -/
structure SegPlan where
  id : String
  start : ℚ
  end_ : ℚ
  deriving Repr, DecidableEq

/-- Embedding of `split.py` line 48:
`total_segments = int(math.ceil(duration / self.segment_duration))`
(`Int.toNat` clamps a negative count to zero exactly as `range` of a
negative integer is empty in Python). -/
def totalSegments (duration : ℚ) (segment_duration : ℕ) : ℕ :=
  (Int.ceil (duration / (segment_duration : ℚ))).toNat

/-- The body of the loop in `VideoSegmenter.segment` (lines 50-53): the
boundary and id computed at one `index`. -/
def mkSegPlan (duration : ℚ) (segment_duration : ℕ) (index : ℕ) : SegPlan :=
  let start : ℚ := (index : ℚ) * (segment_duration : ℚ)
  let end_ : ℚ := min (((index : ℚ) + 1) * (segment_duration : ℚ)) duration
  { id := segmentIdOf index (pyInt (start * 1000)) (pyInt (end_ * 1000))
    start := start
    end_ := end_ }

/-- The segment list computed by `VideoSegmenter.segment` for a media of the
given duration: one `SegPlan` per `index in range(total_segments)`. -/
def segmentPlan (duration : ℚ) (segment_duration : ℕ) : List SegPlan :=
  (List.range (totalSegments duration segment_duration)).map
    (mkSegPlan duration segment_duration)

/-- Clamping in `VideoSegmenter.__init__`: `self.segment_duration = max(1, segment_duration)`. -/
def normSegmentDuration (segment_duration : ℤ) : ℕ := (max 1 segment_duration).toNat

/-- Clamping in `VideoSegmenter.__init__`: `self.frames_per_segment = max(0, frames_per_segment)`. -/
def normFramesPerSegment (frames_per_segment : ℤ) : ℕ := (max 0 frames_per_segment).toNat

/-- C1: the last segment of a positive-duration plan ends exactly at the
duration. Helper fact: `D ≤ totalSegments * S`. -/
theorem duration_le_total_mul (D : ℚ) (S : ℕ) (hD : 0 < D) (hS : 1 ≤ S) :
    D ≤ (totalSegments D S : ℚ) * (S : ℚ) := by
  have hSpos : (0 : ℚ) < (S : ℚ) := by exact_mod_cast hS
  have hceil : D / (S : ℚ) ≤ ((Int.ceil (D / (S : ℚ)) : ℤ) : ℚ) := Int.le_ceil _
  have hpos : 0 < Int.ceil (D / (S : ℚ)) := by
    apply Int.ceil_pos.mpr
    exact div_pos hD hSpos
  have htn : ((totalSegments D S : ℕ) : ℤ) = Int.ceil (D / (S : ℚ)) := by
    simpa [totalSegments] using Int.toNat_of_nonneg (le_of_lt hpos)
  have : D / (S : ℚ) ≤ ((totalSegments D S : ℕ) : ℚ) := by
    rw [show ((totalSegments D S : ℕ) : ℚ) = ((((totalSegments D S : ℕ) : ℤ)) : ℚ) by push_cast; ring]
    rw [htn]
    exact hceil
  calc D = D / (S : ℚ) * (S : ℚ) := by field_simp
    _ ≤ ((totalSegments D S : ℕ) : ℚ) * (S : ℚ) := by
        exact mul_le_mul_of_nonneg_right this (le_of_lt hSpos)

theorem totalSegments_pos (D : ℚ) (S : ℕ) (hD : 0 < D) (hS : 1 ≤ S) :
    0 < totalSegments D S := by
  have hSpos : (0 : ℚ) < (S : ℚ) := by exact_mod_cast hS
  have hpos : 0 < Int.ceil (D / (S : ℚ)) := Int.ceil_pos.mpr (div_pos hD hSpos)
  simp only [totalSegments]
  omega

/-- C1: for every media duration D > 0 and segment_duration S > 0,
`VideoSegmenter.segment` produces exactly `ceil(D/S)` segments; segment i has
start `i*S` and end `min((i+1)*S, D)`; no segment extends past D; and the last
segment's end equals D. -/
theorem segment_boundaries (D : ℚ) (S : ℕ) (hD : 0 < D) (hS : 1 ≤ S) :
    (segmentPlan D S).length = (Int.ceil (D / (S : ℚ))).toNat
    ∧ (∀ i (hi : i < (segmentPlan D S).length),
        ((segmentPlan D S).get ⟨i, hi⟩).start = (i : ℚ) * (S : ℚ)
        ∧ ((segmentPlan D S).get ⟨i, hi⟩).end_ = min (((i : ℚ) + 1) * (S : ℚ)) D)
    ∧ (∀ sp ∈ segmentPlan D S, sp.end_ ≤ D)
    ∧ ∀ h : segmentPlan D S ≠ [], ((segmentPlan D S).getLast h).end_ = D := by
  have hlen : (segmentPlan D S).length = totalSegments D S := by
    simp [segmentPlan]
  refine ⟨by simpa [totalSegments] using hlen, ?_, ?_, ?_⟩
  · intro i hi
    have hi' : i < totalSegments D S := hlen ▸ hi
    constructor
    · simp [segmentPlan, mkSegPlan, List.get_eq_getElem]
    · simp [segmentPlan, mkSegPlan, List.get_eq_getElem]
  · intro sp hsp
    simp only [segmentPlan, List.mem_map, List.mem_range] at hsp
    obtain ⟨i, _, rfl⟩ := hsp
    simp [mkSegPlan]
  · intro h
    have hn : 0 < totalSegments D S := totalSegments_pos D S hD hS
    rw [List.getLast_eq_getElem]
    have hidx : (segmentPlan D S).length - 1 < (segmentPlan D S).length := by
      rw [hlen]; omega
    have hget : (segmentPlan D S)[(segmentPlan D S).length - 1]
        = mkSegPlan D S (totalSegments D S - 1) := by
      simp [segmentPlan, hlen]
    rw [hget]
    have h1 : totalSegments D S - 1 + 1 = totalSegments D S := Nat.succ_pred_eq_of_pos hn
    have hcast : ((totalSegments D S - 1 : ℕ) : ℚ) + 1 = (totalSegments D S : ℚ) := by
      rw [show ((totalSegments D S - 1 : ℕ) : ℚ) + 1
          = ((totalSegments D S - 1 + 1 : ℕ) : ℚ) by push_cast; ring, h1]
    simp only [mkSegPlan, hcast]
    exact min_eq_right (duration_le_total_mul D S hD hS)


/-- Witness for C1 at D = 65, S = 30: three segments are produced, none extends
past 65, and the last segment ends exactly at 65. -/
theorem segment_boundaries_witness :
    (segmentPlan 65 30).length = 3
    ∧ (∀ sp ∈ segmentPlan 65 30, sp.end_ ≤ 65)
    ∧ ∀ h : segmentPlan 65 30 ≠ [], ((segmentPlan 65 30).getLast h).end_ = 65 := by
  obtain ⟨h1, _, h3, h4⟩ := segment_boundaries 65 30 (by norm_num) (by norm_num)
  refine ⟨?_, h3, h4⟩
  rw [h1]
  have h : (Int.ceil ((65 : ℚ) / ((30 : ℕ) : ℚ))) = 3 := by
    rw [Int.ceil_eq_iff]
    norm_num
  rw [h]
  rfl

/-- Embedding of `VideoSegmenter._frame_offsets` (`split.py` lines 85-88): empty when
`frames_per_segment <= 0 or duration <= 0`, otherwise
`np.linspace(0, max(duration - 0.001, 0.0), frames_per_segment, endpoint=False)`
whose i-th point is `i * (max (duration - 0.001) 0) / frames_per_segment`. -/
def frameOffsets (frames_per_segment : ℕ) (duration : ℚ) : List ℚ :=
  if frames_per_segment = 0 ∨ duration ≤ 0 then []
  else (List.range frames_per_segment).map
    (fun (i : ℕ) => (i : ℚ) * (max (duration - 1/1000) 0) / (frames_per_segment : ℚ))

/-- C7: for a segment of positive duration d ≤ segment_duration S, zero
`frames_per_segment` yields no offsets; otherwise exactly `frames_per_segment`
evenly spaced offsets are produced, offset 0 is the first one, and every offset
lies in `[0, d) ⊆ [0, S)`. -/
theorem frame_offsets_spec (fps : ℕ) (d S : ℚ) (hd : 0 < d) (hdS : d ≤ S) :
    (fps = 0 → frameOffsets fps d = [])
    ∧ (1 ≤ fps →
        (frameOffsets fps d).length = fps
        ∧ (∀ i (hi : i < (frameOffsets fps d).length),
            (frameOffsets fps d).get ⟨i, hi⟩
              = (i : ℚ) * (max (d - 1/1000) 0) / (fps : ℚ))
        ∧ (frameOffsets fps d).head? = some 0
        ∧ (∀ x ∈ frameOffsets fps d, 0 ≤ x ∧ x < d ∧ x < S)) := by
  constructor
  · intro h0
    simp [frameOffsets, h0]
  · intro hfps
    have hcond : ¬ (fps = 0 ∨ d ≤ 0) := by
      push_neg
      exact ⟨by omega, hd⟩
    have hm0 : (0 : ℚ) ≤ max (d - 1/1000) 0 := le_max_right _ _
    have hmd : max (d - 1/1000) 0 < d := by
      apply max_lt
      · linarith
      · exact hd
    have hfq : (0 : ℚ) < (fps : ℚ) := by exact_mod_cast hfps
    refine ⟨?_, ?_, ?_, ?_⟩
    · unfold frameOffsets
      rw [if_neg hcond, List.length_map, List.length_range]
    · intro i hi
      simp only [frameOffsets, hcond, if_false, List.get_eq_getElem,
        List.getElem_map, List.getElem_range]
    · obtain ⟨k, rfl⟩ : ∃ k, fps = k + 1 := ⟨fps - 1, by omega⟩
      unfold frameOffsets
      rw [if_neg hcond, List.range_succ_eq_map]
      simp
    · intro x hx
      unfold frameOffsets at hx
      rw [if_neg hcond] at hx
      obtain ⟨i, hi, rfl⟩ := List.mem_map.mp hx
      have hi' : i < fps := List.mem_range.mp hi
      have hiq : (0 : ℚ) ≤ (i : ℚ) := Nat.cast_nonneg i
      have hile : (i : ℚ) ≤ (fps : ℚ) := by exact_mod_cast Nat.le_of_lt hi'
      have hx0 : (0 : ℚ) ≤ (i : ℚ) * (max (d - 1/1000) 0) / (fps : ℚ) := by positivity
      have hxm : (i : ℚ) * (max (d - 1/1000) 0) / (fps : ℚ) ≤ max (d - 1/1000) 0 := by
        rw [div_le_iff₀ hfq]
        calc (i : ℚ) * (max (d - 1/1000) 0) ≤ (fps : ℚ) * (max (d - 1/1000) 0) :=
              mul_le_mul_of_nonneg_right hile hm0
          _ = max (d - 1/1000) 0 * (fps : ℚ) := by ring
      have hxd : (i : ℚ) * (max (d - 1/1000) 0) / (fps : ℚ) < d := lt_of_le_of_lt hxm hmd
      exact ⟨hx0, hxd, lt_of_lt_of_le hxd hdS⟩

/-- Witness for C7 at fps = 6, d = S = 30: the offsets list has length 6,
starts at offset 0, and every offset lies in `[0, 30)`. -/
theorem frame_offsets_witness :
    (frameOffsets 6 30).length = 6
    ∧ (frameOffsets 6 30).head? = some 0
    ∧ (∀ x ∈ frameOffsets 6 30, 0 ≤ x ∧ x < 30 ∧ x < 30)
    ∧ frameOffsets 0 30 = [] := by
  obtain ⟨hz, hpos⟩ := frame_offsets_spec 6 30 30 (by norm_num) (by norm_num)
  obtain ⟨h1, _, h3, h4⟩ := hpos (by norm_num)
  exact ⟨h1, h3, h4, (frame_offsets_spec 0 30 30 (by norm_num) (by norm_num)).1 rfl⟩


/-- C9: a segment's id is the deterministic encoding of its ordinal index and
its millisecond-quantized (`int(x * 1000)`, i.e. truncated toward zero) start
and end: two runs with the same duration and parameters assign identical ids
at every index, and each id is `segmentIdOf` applied to the index and the
millisecond values of that segment's own start and end. -/
theorem segment_id_deterministic (D₁ D₂ : ℚ) (S₁ S₂ : ℕ)
    (hD : D₁ = D₂) (hS : S₁ = S₂) :
    (∀ i (h1 : i < (segmentPlan D₁ S₁).length) (h2 : i < (segmentPlan D₂ S₂).length),
        ((segmentPlan D₁ S₁).get ⟨i, h1⟩).id = ((segmentPlan D₂ S₂).get ⟨i, h2⟩).id)
    ∧ ∀ i (hi : i < (segmentPlan D₁ S₁).length),
        ((segmentPlan D₁ S₁).get ⟨i, hi⟩).id
          = segmentIdOf i
              (pyInt (((segmentPlan D₁ S₁).get ⟨i, hi⟩).start * 1000))
              (pyInt (((segmentPlan D₁ S₁).get ⟨i, hi⟩).end_ * 1000)) := by
  subst hD
  subst hS
  constructor
  · intro i h1 h2
    rfl
  · intro i hi
    simp only [segmentPlan, List.get_eq_getElem, List.getElem_map, List.getElem_range, mkSegPlan]

/-- Witness for C9 at D = 65, S = 30, index 2: the id at index 2 is determined
by the index and the millisecond start/end values `60000` and `65000`. -/
theorem segment_id_deterministic_witness :
    (segmentPlan 65 30).length = 3
    ∧ ∀ h2 : 2 < (segmentPlan 65 30).length,
        ((segmentPlan 65 30).get ⟨2, h2⟩).id = "seg-0002-60000-65000" := by
  have hlen : (segmentPlan 65 30).length = 3 := by
    have h : (Int.ceil ((65 : ℚ) / (30 : ℚ))) = 3 := by
      rw [Int.ceil_eq_iff]
      norm_num
    simp [segmentPlan, totalSegments, h]
  refine ⟨hlen, fun h2 => ?_⟩
  have h := (segment_id_deterministic 65 65 30 30 rfl rfl).2 2 h2
  rw [h]
  have hget : (segmentPlan 65 30).get ⟨2, h2⟩ = mkSegPlan 65 30 2 := by
    simp [segmentPlan]
  rw [hget]
  simp only [mkSegPlan]
  norm_num [pyInt, segmentIdOf, pad4]
  rfl

/-- Errors on the segmentation path. `decoderError` stands for the exception
the video decoding library (`VideoFileClip`) itself raises when the source
cannot be opened and which `VideoSegmenter.segment` propagates unchanged;
`mediaReadError` is the error class named by the spec's taxonomy (no class of
that name exists anywhere in the source tree). -/
inductive SegError where
  | decoderError
  | mediaReadError
  deriving Repr, DecidableEq

/-- Embedding of `VideoSegmenter.segment` (`split.py` lines 40-83) restricted to the
boundary metadata it computes: opening the clip either raises the decoder's
own error or yields `clip.duration` (possibly `None`, turned into `0.0` by
`duration = clip.duration or 0.0`); the segment list is then built from that
duration. -/
def segmentRun (openResult : Except SegError (Option ℚ)) (segment_duration : ℕ) :
    Except SegError (List SegPlan) :=
  match openResult with
  | .error e => .error e
  | .ok durationOpt => .ok (segmentPlan (pyOrQ durationOpt 0) segment_duration)

/-- C6 counterexample: a source that opens with duration exactly 0 does not
fail at all — `segment` returns an empty segment list, contradicting the claim
that a non-positive-duration source fails with `MediaReadError` rather than
returning a result. -/
theorem segment_zero_duration_returns_result :
    segmentRun (.ok (some 0)) 30 = .ok []
    ∧ ∀ e, segmentRun (.ok (some 0)) 30 ≠ .error e := by
  have hplan : segmentPlan 0 30 = [] := by
    have : totalSegments 0 30 = 0 := by
      simp [totalSegments]
    simp [segmentPlan, this]
  constructor
  · simp [segmentRun, pyOrQ, hplan]
  · intro e
    simp [segmentRun, pyOrQ, hplan]

/-- C6 amended: if the source cannot be opened, `segment` propagates the
decoder's own error unchanged (it never produces `mediaReadError`, which does
not exist in the code); if the source opens but its duration is missing or
non-positive, `segment` succeeds and returns the empty segment list. -/
theorem segment_unreadable_or_nonpositive (S : ℕ) (hS : 1 ≤ S) :
    (∀ e, segmentRun (.error e) S = .error e)
    ∧ segmentRun (.ok none) S = .ok []
    ∧ ∀ d : ℚ, d ≤ 0 → segmentRun (.ok (some d)) S = .ok [] := by
  have hSq : (0 : ℚ) < (S : ℚ)  := by exact_mod_cast hS
  have hplan : ∀ d : ℚ, d ≤ 0 → segmentPlan d S = [] := by
    intro d hd
    have hceil : Int.ceil (d / (S : ℚ)) ≤ 0 := by
      rw [Int.ceil_le]
      push_cast
      exact div_nonpos_of_nonpos_of_nonneg hd (le_of_lt hSq)
    have : totalSegments d S = 0 := by
      simp only [totalSegments]
      omega
    simp [segmentPlan, this]
  refine ⟨fun e => rfl, ?_, ?_⟩
  · simp [segmentRun, pyOrQ, hplan 0 le_rfl]
  · intro d hd
    rcases eq_or_lt_of_le hd with heq | hlt
    · simp [segmentRun, pyOrQ, heq, hplan 0 le_rfl]
    · have hne : d ≠ 0 := ne_of_lt hlt
      simp [segmentRun, pyOrQ, hne, hplan d hd]

/-- Witness for C6 amended at S = 30: decoder errors propagate and duration
-5 yields the empty list. -/
theorem segment_unreadable_or_nonpositive_witness :
    segmentRun (.error .decoderError) 30 = .error .decoderError
    ∧ segmentRun (.ok none) 30 = .ok []
    ∧ segmentRun (.ok (some (-5))) 30 = .ok [] := by
  obtain ⟨h1, h2, h3⟩ := segment_unreadable_or_nonpositive 30 (by norm_num)
  exact ⟨h1 .decoderError, h2, h3 (-5) (by norm_num)⟩


/-- Errors raised by the remote enrichment / embedding / storage services the
pipeline calls (external collaborators; a raised exception propagates). -/
inductive PipeError where
  | enrichment
  | schemaViolation
  | storage
  deriving Repr, DecidableEq

/-- Python `x or default` on an optional string: `None` and `""` are falsy
(`response.text or ""` in `asr.py` line 26). -/
def pyOrStr (x : Option String) (default : String) : String :=
  match x with
  | none => default
  | some s => if s = "" then default else s

/-- Embedding of `WhisperTranscriber.transcribe_path` (`asr.py` lines 18-26): a `None` or
non-existent audio path short-circuits to `""` without touching the service;
otherwise the transcription service is called (it may raise, and its `text`
field may be `None`, normalized by `response.text or ""`). -/
def transcribe_path (audio_path : Option String) (fileExists : String → Bool)
    (service : String → Except PipeError (Option String)) : Except PipeError String :=
  match audio_path with
  | none => .ok ""
  | some p =>
    if fileExists p then
      match service p with
      | .error e => .error e
      | .ok t => .ok (pyOrStr t "")
    else .ok ""

/-- C5: whenever the audio handle is `None` or names a non-existent file,
`transcribe_path` returns the empty string and raises no error, whatever the
transcription service would have done; the returned transcript is a string
(never `None` — on the service path `response.text or ""` replaces `None`). -/
theorem transcribe_missing_audio (audio_path : Option String)
    (fileExists : String → Bool)
    (service : String → Except PipeError (Option String))
    (h : audio_path = none ∨ ∃ p, audio_path = some p ∧ fileExists p = false) :
    transcribe_path audio_path fileExists service = .ok "" := by
  rcases h with h | ⟨p, hp, hex⟩
  · rw [h]
    rfl
  · rw [hp]
    simp [transcribe_path, hex]

/-- Witness for C5: a `None` handle, and a handle to a file that does not
exist, both yield `.ok ""` even against a service that always raises. -/
theorem transcribe_missing_audio_witness :
    transcribe_path none (fun _ => false) (fun _ => .error .enrichment) = .ok ""
    ∧ transcribe_path (some "seg-0000-0-30000.mp3") (fun _ => false)
        (fun _ => .error .enrichment) = .ok "" := by
  constructor
  · exact transcribe_missing_audio none (fun _ => false) (fun _ => .error .enrichment)
      (Or.inl rfl)
  · exact transcribe_missing_audio (some "seg-0000-0-30000.mp3") (fun _ => false)
      (fun _ => .error .enrichment)
      (Or.inr ⟨"seg-0000-0-30000.mp3", rfl, rfl⟩)

/-- The dynamic value `build_embedding_input` finds under `"key_points"`:
a string, an iterable of strings, or something non-iterable. -/
inductive KeyPointsVal where
  | str (s : String)
  | strList (l : List String)
  | notIterable
  deriving Repr, DecidableEq

/-- The summarizer's JSON object as consumed by `build_embedding_input`
(each key may be absent, read through `summary.get(...)`). -/
structure PySummary where
  summary : Option String
  key_points : Option KeyPointsVal
  deriving Repr, DecidableEq

/-- Embedding of `build_embedding_input` (`_utils.py` lines 8-23): normalizes `key_points`
(a lone string becomes a one-element list, a non-iterable becomes `[]`), joins
the points with newlines, and lays the four parts out under their headers. -/
def build_embedding_input (summary : PySummary) (caption transcript : String) : String :=
  let raw_points := summary.key_points.getD (.strList [])
  let points_list : List String :=
    match raw_points with
    | .str s => [s]
    | .strList l => l
    | .notIterable => []
  let key_points := String.intercalate "\n" points_list
  "Summary:\n" ++ summary.summary.getD "" ++ "\n"
    ++ "Key Points:\n" ++ key_points ++ "\n"
    ++ "Caption:\n" ++ caption ++ "\n"
    ++ "Transcript:\n" ++ transcript

/-- C8: for every summary text, key-point list, caption and transcript, the
embedding input is exactly the labeled concatenation, in fixed order, of the
summary under "Summary:", the newline-joined key points under "Key Points:",
the caption under "Caption:" and the transcript under "Transcript:". -/
theorem build_embedding_input_format (s : String) (kps : List String)
    (caption transcript : String) :
    build_embedding_input ⟨some s, some (.strList kps)⟩ caption transcript
      = "Summary:\n" ++ s ++ "\n"
        ++ "Key Points:\n" ++ String.intercalate "\n" kps ++ "\n"
        ++ "Caption:\n" ++ caption ++ "\n"
        ++ "Transcript:\n" ++ transcript := rfl


/-- One stored row as seen by the store's match function, carrying the
similarity score the external store computes for it against the query
embedding (the vector arithmetic happens inside the store and is abstracted
as this field). -/
structure ScoredRow where
  session_id : String
  segment_id : String
  similarity : ℚ
  deriving Repr, DecidableEq

/-- Insert one row into a list already ranked by descending similarity. -/
def insertDescBySim (r : ScoredRow) : List ScoredRow → List ScoredRow
  | [] => [r]
  | x :: xs =>
    if x.similarity < r.similarity then r :: x :: xs else x :: insertDescBySim r xs

/-- Rank rows by descending similarity (insertion sort; equal-similarity rows
keep the store's own order, on which callers must not rely). -/
def sortDescBySim : List ScoredRow → List ScoredRow
  | [] => []
  | x :: xs => insertDescBySim x (sortDescBySim xs)

theorem mem_insertDescBySim (a r : ScoredRow) (l : List ScoredRow) :
    a ∈ insertDescBySim r l ↔ a = r ∨ a ∈ l := by
  induction l with
  | nil => simp [insertDescBySim]
  | cons x xs ih =>
    by_cases h : x.similarity < r.similarity
    · simp [insertDescBySim, h]
    · simp [insertDescBySim, h, ih]
      tauto

theorem mem_sortDescBySim (a : ScoredRow) (l : List ScoredRow) :
    a ∈ sortDescBySim l → a ∈ l := by
  induction l with
  | nil => simp [sortDescBySim]
  | cons x xs ih =>
    intro h
    rcases (mem_insertDescBySim a x (sortDescBySim xs)).mp h with h | h
    · simp [h]
    · simp [ih h]

/-- The payload `SupabaseVectorStore.similarity_search` builds
(`_storage/__init__.py` lines 40-46; `similarity_threshold` is put in the
payload only when supplied). -/
structure RpcPayload where
  match_count : ℕ
  filter_session : String
  similarity_threshold : Option ℚ
  deriving Repr, DecidableEq

/-- Modelled from the spec: the database-side match function (the Supabase RPC
named by `match_rpc`) belongs to the repository but is not under `src/` — only
its caller is. Per the spec it returns matches "restricted to the given
session, ranked by descending similarity, truncated to at most k, and
additionally filtered to similarity ≥ threshold when supplied". -/
def matchRpc (rows : List ScoredRow) (payload : RpcPayload) : List ScoredRow :=
  let inSession := rows.filter (fun r => r.session_id == payload.filter_session)
  let kept :=
    match payload.similarity_threshold with
    | some t => inSession.filter (fun r => decide (t ≤ r.similarity))
    | none => inSession
  (sortDescBySim kept).take payload.match_count

/-- Embedding of `SupabaseVectorStore.similarity_search` (`_storage/__init__.py`
lines 33-49): builds the RPC payload and returns `response.data or []` — the match
RPC's row list. -/
def similarity_search (rows : List ScoredRow) (session_id : String)
    (match_count : ℕ) (similarity_threshold : Option ℚ) : List ScoredRow :=
  let payload : RpcPayload :=
    { match_count := match_count
      filter_session := session_id
      similarity_threshold := similarity_threshold }
  matchRpc rows payload

/-- C4: for every store content, session, k and optional threshold, `search`
returns at most k rows, and when a threshold is supplied every returned row's
similarity is at least the threshold. -/
theorem similarity_search_bounds (rows : List ScoredRow) (session_id : String)
    (k : ℕ) (threshold : Option ℚ) :
    (similarity_search rows session_id k threshold).length ≤ k
    ∧ ∀ r ∈ similarity_search rows session_id k threshold,
        ∀ t, threshold = some t → t ≤ r.similarity := by
  constructor
  · exact List.length_take_le k _
  · intro r hr t ht
    subst ht
    have h1 : r ∈ sortDescBySim
        ((rows.filter (fun x => x.session_id == session_id)).filter
          (fun x => decide (t ≤ x.similarity))) := by
      simpa [similarity_search, matchRpc] using List.mem_of_mem_take hr
    have h2 := mem_sortDescBySim _ _ h1
    have h3 := List.of_mem_filter h2
    exact of_decide_eq_true h3

/-- Witness for C4: a three-row store searched with k = 2 and threshold 5
returns at most two rows, and its concrete top in-session hit scores at least
the threshold. -/
theorem similarity_search_bounds_witness :
    (similarity_search
        [⟨"s", "a", 9⟩, ⟨"s", "b", 1⟩, ⟨"t", "c", 10⟩] "s" 2 (some 5)).length ≤ 2
    ∧ (5 : ℚ) ≤ (9 : ℚ) := by
  have h := similarity_search_bounds
    [⟨"s", "a", 9⟩, ⟨"s", "b", 1⟩, ⟨"t", "c", 10⟩] "s" 2 (some 5)
  refine ⟨h.1, ?_⟩
  have hmem : (⟨"s", "a", 9⟩ : ScoredRow) ∈ similarity_search
      [⟨"s", "a", 9⟩, ⟨"s", "b", 1⟩, ⟨"t", "c", 10⟩] "s" 2 (some 5) := by
    decide
  exact h.2 _ hmem _ rfl


/-- The projected fields `CloudVideoRAGService.query` reads from one store
match or from its `"metadata"` payload; every key may be absent (`.get`
returns `None` for a missing key). -/
structure MatchFields where
  segment_id : Option String
  start : Option ℚ
  end_ : Option ℚ
  summary : Option String
  caption : Option String
  transcript : Option String
  similarity : Option ℚ
  deriving Repr, DecidableEq

/-- One raw match returned by the store RPC: its own top-level projected
fields plus an optional `"metadata"` payload. -/
structure StoreMatch where
  metadata : Option MatchFields
  top : MatchFields
  deriving Repr, DecidableEq

/-- Embedding of `data = match.get("metadata", match)` (`_op.py` line 104): the metadata
payload when the key is present, otherwise the match itself (restricted to
the projected fields). -/
def matchData (m : StoreMatch) : MatchFields := m.metadata.getD m.top

/-- Python `x or y` on optional similarity scores: `None` and `0` are falsy
(`match.get("similarity") or data.get("similarity")`, `_op.py` line 113). -/
def pyOrOptQ (a b : Option ℚ) : Option ℚ :=
  match a with
  | none => b
  | some v => if v = 0 then b else some v

/-- The evidence item `query` assembles from one match (`_op.py` lines
102-115): every projected field is read from `data`, except similarity,
which prefers the truthy top-level score and falls back to `data`'s. -/
def assembleEvidence (m : StoreMatch) : MatchFields :=
  let data := matchData m
  { segment_id := data.segment_id
    start := data.start
    end_ := data.end_
    summary := data.summary
    caption := data.caption
    transcript := data.transcript
    similarity := pyOrOptQ m.top.similarity data.similarity }

/-- C10 counterexample: for a match with no `"metadata"` key whose top-level
similarity is exactly 0, `data` is the match itself, so the assembled
similarity is that very top-level 0 — not `None`, and not taken from any
metadata payload — contradicting "a top-level similarity of exactly 0 is
never itself reported". -/
theorem evidence_zero_similarity_counterexample :
    ({ metadata := none,
       top := { segment_id := none, start := none, end_ := none, summary := none,
                caption := none, transcript := none,
                similarity := some 0 } } : StoreMatch).top.similarity = some 0
    ∧ (assembleEvidence
        { metadata := none,
          top := { segment_id := none, start := none, end_ := none, summary := none,
                   caption := none, transcript := none,
                   similarity := some 0 } }).similarity = some 0 := by
  constructor
  · rfl
  · rfl

/-- C10 amended: when the match carries a `"metadata"` payload, an absent or
exactly-0 top-level similarity is replaced by the metadata payload's
similarity (`None` when the metadata carries none), and every other projected
field is read from the metadata payload, `None` when missing, never an error;
when the match has no `"metadata"` payload, all fields — similarity included —
are read from the match itself, so a top-level similarity of exactly 0 is
reported as 0. -/
theorem assemble_evidence_fields (m : StoreMatch) :
    (∀ md, m.metadata = some md →
        ((m.top.similarity = none ∨ m.top.similarity = some 0) →
            (assembleEvidence m).similarity = md.similarity)
        ∧ (assembleEvidence m).segment_id = md.segment_id
        ∧ (assembleEvidence m).start = md.start
        ∧ (assembleEvidence m).end_ = md.end_
        ∧ (assembleEvidence m).summary = md.summary
        ∧ (assembleEvidence m).caption = md.caption
        ∧ (assembleEvidence m).transcript = md.transcript)
    ∧ (m.metadata = none →
        (assembleEvidence m).similarity = m.top.similarity
        ∧ (assembleEvidence m).segment_id = m.top.segment_id) := by
  constructor
  · intro md hmd
    refine ⟨?_, ?_, ?_, ?_, ?_, ?_, ?_⟩ <;>
      simp only [assembleEvidence, matchData, hmd, Option.getD_some]
    · rintro (h | h) <;> simp [h, pyOrOptQ]
  · intro hnone
    constructor <;> simp only [assembleEvidence, matchData, hnone, Option.getD_none]
    cases hsim : m.top.similarity with
    | none => simp [pyOrOptQ]
    | some v =>
      by_cases hv : v = 0
      · simp [pyOrOptQ, hv]
      · simp [pyOrOptQ, hv]

/-- Witness for C10 amended: a match whose metadata scores 3 while the
top-level similarity is 0 reports similarity 3 and the metadata's segment id;
a metadata-free match reports its own fields. -/
theorem assemble_evidence_fields_witness :
    (assembleEvidence
        { metadata := some { segment_id := some "seg-0001", start := none, end_ := none,
                             summary := none, caption := none, transcript := none,
                             similarity := some 3 },
          top := { segment_id := none, start := none, end_ := none, summary := none,
                   caption := none, transcript := none,
                   similarity := some 0 } }).similarity = some 3
    ∧ (assembleEvidence
        { metadata := some { segment_id := some "seg-0001", start := none, end_ := none,
                             summary := none, caption := none, transcript := none,
                             similarity := some 3 },
          top := { segment_id := none, start := none, end_ := none, summary := none,
                   caption := none, transcript := none,
                   similarity := some 0 } }).segment_id = some "seg-0001" := by
  have h := (assemble_evidence_fields
    { metadata := some { segment_id := some "seg-0001", start := none, end_ := none,
                         summary := none, caption := none, transcript := none,
                         similarity := some 3 },
      top := { segment_id := none, start := none, end_ := none, summary := none,
               caption := none, transcript := none,
               similarity := some 0 } }).1 _ rfl
  exact ⟨h.1 (Or.inr rfl), h.2.1⟩


/-- The structured summary object the summarizer's JSON schema declares
(`feature.py` lines 18-36: required `summary` and `key_points`). -/
structure SummaryObj where
  summary : String
  key_points : List String
  deriving Repr, DecidableEq

/-- Conversion `toPySummary` re-reads a schema-conformant summary the way
`build_embedding_input` accesses it (both keys present, points a list). -/
def toPySummary (s : SummaryObj) : PySummary :=
  { summary := some s.summary, key_points := some (.strList s.key_points) }

/-- The `VideoSegment` dataclass (`split.py` lines 18-26). -/
structure VideoSegment where
  id : String
  start : ℚ
  end_ : ℚ
  frames_base64 : List String
  audio_path : Option String
  deriving Repr, DecidableEq

/-- A per-segment index record as built by `ingest_video`
(`_op.py` lines 68-80). -/
structure Record where
  session_id : String
  segment_id : String
  start : ℚ
  end_ : ℚ
  summary : String
  key_points : List String
  caption : String
  transcript : String
  embedding : List ℚ
  deriving Repr, DecidableEq

/-- The behavior of the external collaborators one `ingest_video` run calls:
the filesystem check and Whisper call used by `transcribe_path`, the
captioner, summarizer and embedder (each may raise), and whether the single
bulk upsert statement succeeds. -/
structure Oracles where
  fileExists : String → Bool
  whisper : String → Except PipeError (Option String)
  caption : VideoSegment → String → Except PipeError String
  summarize : String → String → Except PipeError SummaryObj
  embed : String → Except PipeError (List ℚ)
  upsertOk : Bool

/-- The body of the per-segment loop of `ingest_video` (`_op.py` lines
60-80): transcribe, caption, summarize, embed — each `await` may raise and
aborts the run — then the record literal. -/
def enrichSegment (o : Oracles) (session_id : String) (seg : VideoSegment) :
    Except PipeError Record :=
  match transcribe_path seg.audio_path o.fileExists o.whisper with
  | .error e => .error e
  | .ok transcript =>
    match o.caption seg transcript with
    | .error e => .error e
    | .ok caption =>
      match o.summarize transcript caption with
      | .error e => .error e
      | .ok summary =>
        match o.embed (build_embedding_input (toPySummary summary) caption transcript) with
        | .error e => .error e
        | .ok embedding =>
          .ok { session_id := session_id
                segment_id := seg.id
                start := seg.start
                end_ := seg.end_
                summary := summary.summary
                key_points := summary.key_points
                caption := caption
                transcript := transcript
                embedding := embedding }

/-- The whole `for segment in segments` loop: records accumulate in order and
the first failure aborts the run before any upsert. -/
def enrichAll (o : Oracles) (session_id : String) :
    List VideoSegment → Except PipeError (List Record)
  | [] => .ok []
  | seg :: rest =>
    match enrichSegment o session_id seg with
    | .error e => .error e
    | .ok r =>
      match enrichAll o session_id rest with
      | .error e => .error e
      | .ok rs => .ok (r :: rs)

/-- The upsert key: Supabase overwrites rows by (session_id, segment_id). -/
def recordKey (r : Record) : String × String := (r.session_id, r.segment_id)

/-- The effect of one successful bulk upsert on the table: rows keyed like a
batch row are overwritten, all batch rows are present afterwards. -/
def upsertApply (store recs : List Record) : List Record :=
  store.filter (fun r => ! recs.any (fun n => decide (recordKey n = recordKey r))) ++ recs

/-- Embedding of `SupabaseVectorStore.upsert_records` (`_storage/__init__.py`
lines 25-31): a no-op on an empty batch (the remote call is skipped entirely);
otherwise one bulk remote statement that either rewrites every row of the
batch or raises, leaving the table untouched. -/
def upsert_records (ok : Bool) (store recs : List Record) :
    Except PipeError (List Record) :=
  if recs.isEmpty then .ok store
  else if ok then .ok (upsertApply store recs) else .error .storage

/-- The pipeline state `ingest_video` can affect: the store table and the
live temporary directories (named by allocation counter). -/
structure PState where
  store : List Record
  temps : List ℕ
  nextTemp : ℕ

/-- Embedding of `tempfile.mkdtemp(prefix="videorag_segments_")`: allocate a fresh
temporary directory. -/
def allocTemp (st : PState) : ℕ × PState :=
  (st.nextTemp,
   { st with temps := st.temps ++ [st.nextTemp], nextTemp := st.nextTemp + 1 })

/-- Embedding of `shutil.rmtree(temp_dir, ignore_errors=True)`: removes the directory and
never raises (an already-absent directory is a no-op). -/
def releaseTemp (t : ℕ) (st : PState) : PState :=
  { st with temps := st.temps.filter (fun x => x != t) }

/-- Python `try/finally`: run the body, then run the finalizer on the body's
final state whether the body returned or raised; the body's outcome is
what the whole block returns or re-raises. -/
def tryFinally {σ ε α : Type} (body : σ → Except ε α × σ) (finalizer : σ → σ)
    (s : σ) : Except ε α × σ :=
  let r := body s
  (r.1, finalizer r.2)

/-- The path `temp_dir / f"{segment_id}.mp3"` for temp directory number `tmp`. -/
def tempAudioPath (tmp : ℕ) (segment_id : String) : String :=
  "videorag_segments_" ++ toString tmp ++ "/" ++ segment_id ++ ".mp3"

/-- Attach keyframes and audio handles to the planned segments (`split.py`
lines 55-81): frames are rendered at `_frame_offsets` of the subclip's length
(rendering abstracted as `frameAt`), and the audio handle is a file in the
temp workspace exactly when the subclip carries an audio stream (`hasAudio`,
indexed by segment ordinal). -/
def attachMedia (fps : ℕ) (hasAudio : ℕ → Bool) (frameAt : ℚ → String)
    (tmp : ℕ) (i : ℕ) : List SegPlan → List VideoSegment
  | [] => []
  | sp :: rest =>
    { id := sp.id
      start := sp.start
      end_ := sp.end_
      frames_base64 := (frameOffsets fps (sp.end_ - sp.start)).map frameAt
      audio_path := if hasAudio i then some (tempAudioPath tmp sp.id) else none }
      :: attachMedia fps hasAudio frameAt tmp (i + 1) rest

/-- Embedding of `VideoSegmenter.segment` as `ingest_video` consumes it: the decoder's
error propagates, otherwise the planned segments carry their media. -/
def segmentAll (openResult : Except SegError (Option ℚ)) (S fps : ℕ)
    (hasAudio : ℕ → Bool) (frameAt : ℚ → String) (tmp : ℕ) :
    Except SegError (List VideoSegment) :=
  match openResult with
  | .error e => .error e
  | .ok durationOpt =>
    .ok (attachMedia fps hasAudio frameAt tmp 0 (segmentPlan (pyOrQ durationOpt 0) S))

/-- An error surfaced by `ingest_video`: the decoder's during segmentation,
or a pipeline collaborator's afterwards. -/
inductive IngestError where
  | seg (e : SegError)
  | pipe (e : PipeError)
  deriving Repr, DecidableEq

/-- Configuration and collaborator behavior for one `ingest_video` run. -/
structure IngestEnv where
  segment_duration : ℕ
  frames_per_segment : ℕ
  hasAudio : ℕ → Bool
  frameAt : ℚ → String
  oracles : Oracles

/-- Embedding of `CloudVideoRAGService.ingest_video` (`_op.py` lines 55-84): segment the
video (which allocates the temp workspace), then — inside `try/finally`
whose finalizer releases the workspace — enrich and embed every segment in
order, collect the records, and upsert them in one bulk call. A failure in
`segmenter.segment` itself propagates before the `try` is entered. -/
def ingest_video (env : IngestEnv) (openResult : Except SegError (Option ℚ))
    (session_id : String) (st0 : PState) : Except IngestError Unit × PState :=
  let alloc := allocTemp st0
  match segmentAll openResult env.segment_duration env.frames_per_segment
      env.hasAudio env.frameAt alloc.1 with
  | .error e => (.error (.seg e), alloc.2)
  | .ok segments =>
    tryFinally
      (fun st =>
        match enrichAll env.oracles session_id segments with
        | .error e => (.error (.pipe e), st)
        | .ok records =>
          match upsert_records env.oracles.upsertOk st.store records with
          | .error e => (.error (.pipe e), st)
          | .ok store' => (.ok (), { st with store := store' }))
      (releaseTemp alloc.1)
      alloc.2


theorem enrichSegment_ids (o : Oracles) (session_id : String)
    (seg : VideoSegment) (r : Record)
    (h : enrichSegment o session_id seg = .ok r) :
    r.session_id = session_id ∧ r.segment_id = seg.id := by
  unfold enrichSegment at h
  repeat' split at h
  all_goals simp_all
  obtain ⟨rfl⟩ := h
  exact ⟨rfl, rfl⟩

theorem enrichAll_mem (o : Oracles) (session_id : String)
    (segs : List VideoSegment) (recs : List Record)
    (h : enrichAll o session_id segs = .ok recs) :
    ∀ sg ∈ segs, ∃ r ∈ recs, enrichSegment o session_id sg = .ok r := by
  induction segs generalizing recs with
  | nil => simp
  | cons seg rest ih =>
    intro sg hsg
    unfold enrichAll at h
    cases h1 : enrichSegment o session_id seg with
    | error e => rw [h1] at h; exact absurd h (by simp)
    | ok r =>
      rw [h1] at h
      cases h2 : enrichAll o session_id rest with
      | error e => rw [h2] at h; exact absurd h (by simp)
      | ok rs =>
        rw [h2] at h
        obtain ⟨rfl⟩ : r :: rs = recs := by simpa using h
        rcases List.mem_cons.mp hsg with rfl | hsg'
        · exact ⟨r, List.mem_cons_self _ _, h1⟩
        · obtain ⟨r', hr', hok⟩ := ih rs h2 sg hsg'
          exact ⟨r', List.mem_cons_of_mem _ hr', hok⟩

theorem mem_upsertApply (store recs : List Record) (r : Record) (h : r ∈ recs) :
    r ∈ upsertApply store recs := by
  simp [upsertApply, h]

/-- C2: one `ingest_video` run is atomic with respect to the store: whenever
the run raises — a segmentation, enrichment, embedding or upsert failure —
the store is exactly what it was before the run; whenever the run returns,
every segment produced by segmentation has a record of this run's session
upserted in the store. -/
theorem ingest_atomic (env : IngestEnv) (openResult : Except SegError (Option ℚ))
    (session_id : String) (st0 : PState) :
    (∀ e, (ingest_video env openResult session_id st0).1 = .error e →
        ((ingest_video env openResult session_id st0).2).store = st0.store)
    ∧ ((ingest_video env openResult session_id st0).1 = .ok () →
        ∀ segs, segmentAll openResult env.segment_duration env.frames_per_segment
            env.hasAudio env.frameAt st0.nextTemp = .ok segs →
          ∀ sg ∈ segs,
            ∃ r ∈ ((ingest_video env openResult session_id st0).2).store,
              r.session_id = session_id ∧ r.segment_id = sg.id) := by
  simp only [ingest_video, tryFinally]
  split
  · exact ⟨fun e _ => rfl, fun hok => absurd hok (by simp)⟩
  · rename_i segments hseg
    split
    · exact ⟨fun e _ => rfl, fun hok => absurd hok (by simp)⟩
    · rename_i records henr
      split
      · exact ⟨fun e _ => rfl, fun hok => absurd hok (by simp)⟩
      · rename_i store1 hup
        refine ⟨fun e he => absurd he (by simp), ?_⟩
        intro _ segs hsegs sg hsg
        rw [show (allocTemp st0).1 = st0.nextTemp from rfl] at hseg
        rw [hseg] at hsegs
        obtain rfl : segments = segs := (Except.ok.injEq _ _).mp hsegs
        obtain ⟨r, hr, hok⟩ := enrichAll_mem env.oracles session_id segments records henr sg hsg
        obtain ⟨hsid, hsegid⟩ := enrichSegment_ids env.oracles session_id sg r hok
        refine ⟨r, ?_, hsid, hsegid⟩
        unfold upsert_records at hup
        by_cases hemp : records.isEmpty
        · rw [if_pos hemp] at hup
          exact absurd hr (by simp [List.isEmpty_iff.mp hemp])
        · rw [if_neg hemp] at hup
          cases hok' : env.oracles.upsertOk with
          | false =>
            rw [hok'] at hup
            exact absurd hup (by simp)
          | true =>
            rw [hok'] at hup
            simp only [if_true] at hup
            obtain rfl : upsertApply ((allocTemp st0).2).store records = store1 :=
              (Except.ok.injEq _ _).mp hup
            exact mem_upsertApply ((allocTemp st0).2).store records r hr

/-- C3: whenever segmentation itself succeeds, the temporary workspace it
allocated is released on every exit of `ingest_video` — on success and on
every enrichment, embedding or upsert failure — before the call returns or
re-raises (the `finally` block runs unconditionally). -/
theorem ingest_releases_temp (env : IngestEnv) (d : Option ℚ)
    (session_id : String) (st0 : PState) (hfresh : st0.nextTemp ∉ st0.temps) :
    ((ingest_video env (.ok d) session_id st0).2).temps = st0.temps := by
  have hfil : (st0.temps ++ [st0.nextTemp]).filter (fun x => x != st0.nextTemp)
      = st0.temps := by
    rw [List.filter_append]
    have h1 : st0.temps.filter (fun x => x != st0.nextTemp) = st0.temps := by
      apply List.filter_eq_self.mpr
      intro a ha
      simp only [bne_iff_ne, ne_eq, decide_eq_true_eq]
      intro heq
      exact hfresh (heq ▸ ha)
    have h2 : [st0.nextTemp].filter (fun x => x != st0.nextTemp) = [] := by simp
    rw [h1, h2, List.append_nil]
  simp only [ingest_video, tryFinally, segmentAll]
  split
  · simp only [releaseTemp, allocTemp]
    exact hfil
  · split
    · simp only [releaseTemp, allocTemp]
      exact hfil
    · simp only [releaseTemp, allocTemp]
      exact hfil


/-- A concrete collaborator environment for exercising the pipeline: every
remote call succeeds, no segment carries audio, no keyframes are requested. -/
def demoEnv : IngestEnv :=
  { segment_duration := 30
    frames_per_segment := 0
    hasAudio := fun _ => false
    frameAt := fun _ => "frame"
    oracles :=
      { fileExists := fun _ => false
        whisper := fun _ => .ok none
        caption := fun _ _ => .ok "caption"
        summarize := fun _ _ => .ok { summary := "summary", key_points := ["point"] }
        embed := fun _ => .ok [1, 0]
        upsertOk := true } }

theorem demo_totalSegments : totalSegments 30 30 = 1 := by
  have h : (Int.ceil ((30 : ℚ) / ((30 : ℕ) : ℚ))) = 1 := by
    rw [Int.ceil_eq_iff]
    norm_num
  simp [totalSegments, h]

theorem demo_segmentPlan : segmentPlan 30 30 = [mkSegPlan 30 30 0] := by
  have h1 : List.range 1 = [0] := rfl
  simp [segmentPlan, demo_totalSegments, h1]

/-- Witness for C2: against an all-successful environment, ingesting a
30-second video upserts a record for its single segment under the session. -/
theorem ingest_atomic_witness :
    (ingest_video demoEnv (.ok (some 30)) "sess" ⟨[], [], 0⟩).1 = .ok ()
    ∧ ∃ r ∈ ((ingest_video demoEnv (.ok (some 30)) "sess" ⟨[], [], 0⟩).2).store,
        r.session_id = "sess" ∧ r.segment_id = (mkSegPlan 30 30 0).id := by
  have hne : ((30 : ℚ)) ≠ 0 := by norm_num
  have hsegs : segmentAll (.ok (some 30)) demoEnv.segment_duration
      demoEnv.frames_per_segment demoEnv.hasAudio demoEnv.frameAt 0
      = .ok [⟨(mkSegPlan 30 30 0).id, (mkSegPlan 30 30 0).start,
             (mkSegPlan 30 30 0).end_, [], none⟩] := by
    simp [segmentAll, demoEnv, pyOrQ, hne, demo_segmentPlan, attachMedia, frameOffsets]
  have hok : (ingest_video demoEnv (.ok (some 30)) "sess" ⟨[], [], 0⟩).1 = .ok () := by
    simp only [ingest_video, tryFinally]
    rw [show (allocTemp ⟨[], [], 0⟩).1 = 0 from rfl]
    rw [hsegs]
    simp [demoEnv, enrichAll, enrichSegment, transcribe_path, upsert_records, allocTemp]
  refine ⟨hok, ?_⟩
  have h := (ingest_atomic demoEnv (.ok (some 30)) "sess" ⟨[], [], 0⟩).2 hok _ hsegs
    ⟨(mkSegPlan 30 30 0).id, (mkSegPlan 30 30 0).start, (mkSegPlan 30 30 0).end_, [], none⟩
    (by simp)
  exact h

/-- Witness for C3: the same run starts with no live temp directories and
finishes with none — the workspace allocated by segmentation was released. -/
theorem ingest_releases_temp_witness :
    ((ingest_video demoEnv (.ok (some 30)) "sess" ⟨[], [], 0⟩).2).temps = [] :=
  ingest_releases_temp demoEnv (some 30) "sess" ⟨[], [], 0⟩ (by simp)

end VideoRAG
